import Mathlib

/-!
Verification of the GlowMin deployment CLI scripts.

The repository consists of three Node command-line scripts (mint-token.js,
create-liquidity.js, deploy-metadata.js) that orchestrate token deployment:
load configuration, load keypairs, compute a distribution plan, execute steps
against the chain, and persist a JSON record of the results.

This file gives a shallow embedding of those scripts.  External SDK calls
(createMint, mintTo, Raydium pool operations, balance queries) are modelled as
oracles supplied through a world record: each oracle is an `Except` value that
is `.ok` when the external call succeeds and `.error` when it throws, so the
scripts' control flow around those calls can be analysed for every outcome.
JavaScript numbers that hold integer token amounts are modelled as `Nat`.
The allocation amounts `Math.floor(totalSupply * fraction)` are computed by
the program in IEEE-754 binary64 arithmetic, and that arithmetic is embedded
exactly: each decimal fraction literal denotes the binary64 value nearest to
it (a dyadic rational `num / 2^k`), the product of an exactly representable
total supply with that constant is rounded to 53 significant bits with round
to nearest, ties to even, and the floor of the rounded product is taken.
All of this is integer arithmetic on the dyadic numerators, implemented by
`flMulFloor` below.
-/

/-- Floor of the base-two logarithm, written with explicit fuel so that the
recursion is structural; exact whenever the fuel is at least the argument. -/
def log2Aux : Nat → Nat → Nat
  | _, 0 => 0
  | _, 1 => 0
  | 0, _ => 0
  | fuel + 1, n + 2 => log2Aux fuel ((n + 2) / 2) + 1

/-- Floor of the base-two logarithm of a natural number. -/
def natLog2 (n : Nat) : Nat := log2Aux n n

/-- The multiple of the grid step `P = 2 * H` nearest to `N`, ties resolved
to the even multiple.  With `P` the unit in the last place of the binade of
`N` and `H` half of it, this is IEEE-754 round-to-nearest-ties-to-even
restricted to one binade. -/
def roundToGrid (N P H : Nat) : Nat :=
  if N % P < H then N / P * P
  else if H < N % P then (N / P + 1) * P
  else (N / P + N / P % 2) * P

/-- Floor of the IEEE-754 binary64 product of a natural number `T` and the
binary64 constant `num / 2^k`, for every `T` that is itself exactly
representable (in particular every `T < 2^53`).  The exact product is the
dyadic rational `T * num / 2^k`; its numerator `N = T * num` is rounded to
53 significant bits (grid step `2^(natLog2 N - 52)`, round to nearest, ties
to even) and the result is floored by the natural division by `2^k`.
Numerators below `2^53` are exactly representable and need no rounding. -/
def flMulFloor (T num k : Nat) : Nat :=
  let N := T * num
  if N < 2 ^ 53 then N / 2 ^ k
  else roundToGrid N (2 ^ (natLog2 N - 52)) (2 ^ (natLog2 N - 53)) / 2 ^ k

namespace MintToken

/-- One entry of the distribution plan built by
`TokenMinter.calculateDistributions` in mint-token.js: a named slice of the
total supply with an amount, a recipient public key and a purpose string. -/
structure Distribution where
  name : String
  amount : Nat
  recipient : String
  purpose : String
deriving Repr, DecidableEq

/-- Embedding of `TokenMinter.calculateDistributions` (mint-token.js).  The
source builds a five-element array in this exact order, with
`amount: BigInt(Math.floor(totalSupply * f))` for the hard-coded fractions
0.4, 0.3, 0.15, 0.1, 0.05 and `recipient: this.keypairs.mintAuthority.publicKey`
for every bucket.  The multiplication is binary64 arithmetic, embedded
exactly by `flMulFloor` with the binary64 values of the five literals:
0.4 is `3602879701896397 / 2^53`, 0.3 is `5404319552844595 / 2^54`,
0.15 is `5404319552844595 / 2^55`, 0.1 is `3602879701896397 / 2^55` and
0.05 is `3602879701896397 / 2^56` (each the binary64 nearest the decimal). -/
def calculateDistributions (totalSupply : Nat) (mintAuthorityPk : String) :
    List Distribution :=
  [ { name := "Liquidity Pool", amount := flMulFloor totalSupply 3602879701896397 53,
      recipient := mintAuthorityPk, purpose := "Initial liquidity provision" },
    { name := "Community", amount := flMulFloor totalSupply 5404319552844595 54,
      recipient := mintAuthorityPk, purpose := "Community rewards and airdrops" },
    { name := "Team", amount := flMulFloor totalSupply 5404319552844595 55,
      recipient := mintAuthorityPk, purpose := "Team allocation with vesting" },
    { name := "Marketing", amount := flMulFloor totalSupply 3602879701896397 55,
      recipient := mintAuthorityPk, purpose := "Marketing campaigns and partnerships" },
    { name := "Reserve", amount := flMulFloor totalSupply 3602879701896397 56,
      recipient := mintAuthorityPk, purpose := "Future development and emergency fund" } ]

/-- State of one keypair file in the keypairs directory, as seen by
`TokenMinter.loadKeypairs`: the file can be absent (`fs.existsSync` false),
present but unreadable or unparsable (`JSON.parse`/`fromSecretKey` throws),
or present with a keypair whose public key is the given string. -/
inductive FileState
  | absent
  | malformed
  | keypair (publicKey : String)
deriving Repr, DecidableEq

/-- The `keypairs` mapping built by `TokenMinter.loadKeypairs`: a key is
present exactly when the corresponding file existed and loaded; a missing file
leaves the property undefined (modelled as `none`). -/
structure Keypairs where
  mintAuthority : Option String
  freezeAuthority : Option String
deriving Repr, DecidableEq

/-- Reading one keypair file inside `loadKeypairs`: an absent file is skipped
(the `fs.existsSync` guard), a malformed file makes the read or parse throw
into the surrounding catch, and a well-formed file yields its keypair. -/
def readKeypairFile : FileState → Except String (Option String)
  | .absent => .ok none
  | .malformed => .error "Failed to load keypairs"
  | .keypair k => .ok (some k)

/-- Embedding of `TokenMinter.loadKeypairs` (mint-token.js): reads
mint-authority.json then freeze-authority.json, each guarded by
`fs.existsSync`; a throw from either read is caught and turns into
`process.exit(1)` (the `.error` case); otherwise the partial mapping is
returned, silently omitting any missing key. -/
def loadKeypairs (mintAuthorityFile freezeAuthorityFile : FileState) :
    Except String Keypairs := do
  let m ← readKeypairFile mintAuthorityFile
  let f ← readKeypairFile freezeAuthorityFile
  return { mintAuthority := m, freezeAuthority := f }

/-- Errors a run can terminate with: a JavaScript TypeError raised by reading
a property of `undefined` (carrying the property name that was read, which is
all the information the error message contains), or an error thrown by an
external SDK call. -/
inductive JsError
  | typeError (prop : String)
  | sdkError (msg : String)
deriving Repr, DecidableEq

/-- The message text of a run-terminating error, as the script would print it. -/
def errorText : JsError → String
  | .typeError p => "TypeError: Cannot read properties of undefined (reading " ++ p ++ ")"
  | .sdkError m => m

/-- Whether an error message mentions a given credential name (as a substring
of the printed text). -/
def errorNamesCredential (e : JsError) (cred : String) : Bool :=
  decide (cred.data <:+: (errorText e).data)

/-- Oracles for the external SDK calls mint-token.js performs: `createMint`,
the n-th `mintTo` submission (indexed by call order), and the final
`setAuthority` revocation.  `.ok` carries the opaque success token the SDK
returns; `.error` means the call threw. -/
structure MintWorld where
  createMint : Except String String
  mintTo : Nat → Except String String
  revoke : Except String String

/-- Embedding of `TokenMinter.createTokenMint`: the call
`createMint(conn, kps.mintAuthority, kps.mintAuthority.publicKey,
kps.freezeAuthority.publicKey, decimals)` first reads `.publicKey` off each
keypair, so a missing keypair raises the generic TypeError for the property
`publicKey` before the SDK is ever reached; otherwise the SDK call decides
the outcome. -/
def createTokenMint (kps : Keypairs) (sdkCall : Except String String) :
    Except JsError String :=
  match kps.mintAuthority with
  | none => .error (.typeError "publicKey")
  | some _ =>
    match kps.freezeAuthority with
    | none => .error (.typeError "publicKey")
    | some _ =>
      match sdkCall with
      | .ok mint => .ok mint
      | .error e => .error (.sdkError e)

/-- One element of the `results` array built by
`TokenMinter.distributeTokens`: on success the step carries the transaction
signature, on failure the caught error message (the source spreads the
distribution entry and adds `signature` or `error`). -/
structure StepResult where
  name : String
  amount : Nat
  signature : Option String
  error : Option String
deriving Repr, DecidableEq

/-- The `for (const distribution of distributions)` loop of
`TokenMinter.distributeTokens`: each step calls `mintTokens` inside a
try/catch, records a success entry with the signature or a failure entry with
the error message, and always continues to the next step. -/
def runDistributionSteps (mintTo : Nat → Except String String) :
    Nat → List Distribution → List StepResult
  | _, [] => []
  | i, d :: rest =>
    (match mintTo i with
     | .ok sig =>
       { name := d.name, amount := d.amount, signature := some sig, error := none }
     | .error e =>
       { name := d.name, amount := d.amount, signature := none, error := some e })
    :: runDistributionSteps mintTo (i + 1) rest

/-- Externally visible effects of a minting run: on-chain mutations
(mint-account creation, token minting, authority revocation) and the write of
the deployments results file. -/
inductive Effect
  | createMint
  | mintTo (amount : Nat)
  | revokeMintAuthority
  | writeDeploymentsFile
deriving Repr, DecidableEq

/-- Effects that mutate on-chain state. -/
def isNetworkMutation : Effect → Bool
  | .writeDeploymentsFile => false
  | _ => true

/-- Effects that write to the local file system. -/
def isFileWrite : Effect → Bool
  | .writeDeploymentsFile => true
  | _ => false

/-- Mint effects only. -/
def isMintEffect : Effect → Bool
  | .mintTo _ => true
  | _ => false

/-- The on-chain mint effects of a list of step results: each step whose
`mintTo` call succeeded minted its amount. -/
def mintEffects (rs : List StepResult) : List Effect :=
  rs.filterMap fun r =>
    match r.signature with
    | some _ => some (.mintTo r.amount)
    | none => none

/-- Outcome of one `executeMinting` run: the process exit status, the step
results written to the deployments file (`none` when no file was written),
the effect trace, and the fatal error if the run was aborted. -/
structure MintRun where
  exit : Nat
  saved : Option (List StepResult)
  effects : List Effect
  fatal : Option JsError
deriving Repr, DecidableEq

/-- JavaScript truthiness of the `amount` option in
`if (amount) { ... single mint ... } else { ... distribution ... }`:
`null` and `BigInt(0)` are both falsy. -/
def truthyAmount : Option Nat → Bool
  | none => false
  | some n => n != 0

/-- Embedding of `TokenMinter.executeMinting` (mint-token.js).  The source
always calls `createTokenMint()` first, before any dry-run check; a throw
anywhere is caught at the bottom and becomes `process.exit(1)`.  A truthy
`amount` triggers a single `mintTokens` call (ignoring `dryRun`); otherwise
`distributeTokens(dryRun)` either prints the plan and returns (dry run) or
runs the continue-on-error loop and writes the results file, after which
(only in the non-dry, no-amount case) the mint authority is revoked. -/
def executeMinting (kps : Keypairs) (w : MintWorld) (totalSupply : Nat)
    (amount : Option Nat) (dryRun : Bool) : MintRun :=
  match createTokenMint kps w.createMint with
  | .error e => { exit := 1, saved := none, effects := [], fatal := some e }
  | .ok _ =>
    let recipient := kps.mintAuthority.getD ""
    if truthyAmount amount then
      match w.mintTo 0 with
      | .ok _ =>
        { exit := 0, saved := none,
          effects := [.createMint, .mintTo (amount.getD 0)], fatal := none }
      | .error e =>
        { exit := 1, saved := none, effects := [.createMint],
          fatal := some (.sdkError e) }
    else
      if dryRun then
        { exit := 0, saved := none, effects := [.createMint], fatal := none }
      else
        let results :=
          runDistributionSteps w.mintTo 0 (calculateDistributions totalSupply recipient)
        match w.revoke with
        | .ok _ =>
          { exit := 0, saved := some results,
            effects :=
              .createMint :: (mintEffects results ++ [.writeDeploymentsFile, .revokeMintAuthority]),
            fatal := none }
        | .error e =>
          { exit := 1, saved := some results,
            effects := .createMint :: (mintEffects results ++ [.writeDeploymentsFile]),
            fatal := some (.sdkError e) }

/-- A world in which every external SDK call succeeds. -/
def allOkWorld : MintWorld :=
  { createMint := .ok "Mint111", mintTo := fun _ => .ok "Sig111", revoke := .ok "Sig222" }

/-- A keypairs mapping with both credentials present. -/
def bothKeypairs : Keypairs :=
  { mintAuthority := some "Auth111", freezeAuthority := some "Freeze111" }

/-- A world matching end-to-end scenario B: every call succeeds except the
third distribution step (index 2), which throws. -/
def scenarioBWorld : MintWorld :=
  { createMint := .ok "Mint111",
    mintTo := fun i => if i = 2 then .error "simulated network failure" else .ok "Sig111",
    revoke := .ok "Sig222" }

/-- Options produced by the mint-token.js `parseArgs` (defaults
`network: devnet, amount: null, dryRun: false, verbose: false`).  `network`
becomes `none` when `--network` is the last argument and `args[++i]` is
`undefined`. -/
structure Options where
  network : Option String
  amount : Option Nat
  dryRun : Bool
  verbose : Bool
deriving Repr, DecidableEq

/-- Default options of mint-token.js `parseArgs`. -/
def defaultOptions : Options :=
  { network := some "devnet", amount := none, dryRun := false, verbose := false }

/-- Outcome of mint-token.js `parseArgs`: the parsed options, the
`process.exit(0)` taken on `--help`, or an exception thrown by `BigInt`
(which the script leaves uncaught, terminating the process). -/
inductive ParseOutcome
  | ok (opts : Options)
  | helpExit
  | thrown
deriving Repr, DecidableEq

/-- Models the JavaScript `BigInt(string)` conversion on the plain decimal
strings the CLI receives: a non-empty all-digit string converts to its value,
anything else makes `BigInt` throw (modelled as `none`). -/
def parseBigInt (s : String) : Option Nat :=
  if !s.data.isEmpty && s.data.all Char.isDigit then
    some (s.data.foldl (fun n c => n * 10 + (c.toNat - 48)) 0)
  else none

/-- Embedding of the mint-token.js `parseArgs` loop: a `switch` over each
argument in turn, where `--network` and `--amount` consume the following
argument, `--help` exits immediately, and any unrecognized argument falls
through the `switch` silently.  `--amount` as the last argument evaluates
`BigInt(undefined)`, which throws. -/
def parseArgs : List String → Options → ParseOutcome
  | [], o => .ok o
  | a :: rest, o =>
    if a = "--network" then
      match rest with
      | v :: rest2 => parseArgs rest2 { o with network := some v }
      | [] => parseArgs [] { o with network := none }
    else if a = "--amount" then
      match rest with
      | v :: rest2 =>
        match parseBigInt v with
        | some n => parseArgs rest2 { o with amount := some n }
        | none => .thrown
      | [] => .thrown
    else if a = "--dry-run" then parseArgs rest { o with dryRun := true }
    else if a = "--verbose" then parseArgs rest { o with verbose := true }
    else if a = "--help" then .helpExit
    else parseArgs rest o

end MintToken

/-- Little-endian decimal digits of a natural number, with explicit fuel so
that the definition is structural (the fuel only needs to be at least the
number itself). -/
def natLEDigitsAux : Nat → Nat → List Nat
  | _, 0 => []
  | 0, _ + 1 => []
  | fuel + 1, n + 1 => (n + 1) % 10 :: natLEDigitsAux fuel ((n + 1) / 10)

/-- The character of a single decimal digit. -/
def digitChar (d : Nat) : Char := Char.ofNat (48 + d)

/-- The decimal character string a JavaScript template literal produces for a
natural number (the rendering of `Date.now()` inside the file-name template),
as a list of characters: the big-endian digits, with 0 rendered as "0". -/
def natDecimalChars (n : Nat) : List Char :=
  match n with
  | 0 => [digitChar 0]
  | m + 1 => ((natLEDigitsAux (m + 1) (m + 1)).reverse).map digitChar

/-- Value of a little-endian digit list. -/
def leDigitsVal : List Nat → Nat
  | [] => 0
  | d :: ds => d + 10 * leDigitsVal ds

theorem leDigitsVal_natLEDigitsAux (fuel : Nat) :
    ∀ n, n ≤ fuel → leDigitsVal (natLEDigitsAux fuel n) = n := by
  induction fuel with
  | zero =>
    intro n hn
    interval_cases n
    simp [natLEDigitsAux, leDigitsVal]
  | succ f ih =>
    intro n hn
    match n with
    | 0 => simp [natLEDigitsAux, leDigitsVal]
    | m + 1 =>
      have hdiv : (m + 1) / 10 ≤ f := by omega
      simp only [natLEDigitsAux, leDigitsVal, ih ((m + 1) / 10) hdiv]
      omega

theorem natLEDigitsAux_lt_ten (fuel : Nat) :
    ∀ n d, d ∈ natLEDigitsAux fuel n → d < 10 := by
  induction fuel with
  | zero =>
    intro n d hd
    match n with
    | 0 => simp [natLEDigitsAux] at hd
    | m + 1 => simp [natLEDigitsAux] at hd
  | succ f ih =>
    intro n d hd
    match n with
    | 0 => simp [natLEDigitsAux] at hd
    | m + 1 =>
      simp only [natLEDigitsAux, List.mem_cons] at hd
      rcases hd with h | h
      · omega
      · exact ih _ _ h

theorem digitChar_toNat {d : Nat} (hd : d < 10) : (digitChar d).toNat = 48 + d := by
  interval_cases d <;> decide

theorem map_toNat_digitChar :
    ∀ l : List Nat, (∀ d ∈ l, d < 10) →
      l.map ((fun c : Char => c.toNat - 48) ∘ digitChar) = l := by
  intro l
  induction l with
  | nil => intro _; rfl
  | cons a t ih =>
    intro hl
    simp only [List.map_cons, Function.comp]
    rw [digitChar_toNat (hl a (by simp)), ih (fun d hd => hl d (by simp [hd]))]
    simp

/-- Decoding of a decimal character string back to its value. -/
def decVal (l : List Char) : Nat :=
  leDigitsVal ((l.map fun c => c.toNat - 48).reverse)

theorem decVal_natDecimalChars (n : Nat) : decVal (natDecimalChars n) = n := by
  match n with
  | 0 => decide
  | m + 1 =>
    simp only [natDecimalChars, decVal, List.map_map]
    rw [map_toNat_digitChar ((natLEDigitsAux (m + 1) (m + 1)).reverse)
      (fun d hd => natLEDigitsAux_lt_ten (m + 1) (m + 1) d (List.mem_reverse.mp hd))]
    rw [List.reverse_reverse]
    exact leDigitsVal_natLEDigitsAux (m + 1) (m + 1) (le_refl _)

/-- The decimal rendering of a natural number determines the number. -/
theorem natDecimalChars_injective :
    ∀ m n : Nat, natDecimalChars m = natDecimalChars n → m = n := by
  intro m n h
  have := congrArg decVal h
  rwa [decVal_natDecimalChars, decVal_natDecimalChars] at this

namespace MintToken

/-- Embedding of the output path built by
`TokenMinter.saveDistributionResults`: the template literal
`minting-NETWORK-TIMESTAMP.json` where the timestamp is the millisecond value
of `Date.now()` rendered in decimal, as a character string. -/
def saveDistributionResultsPath (network : String) (nowMs : Nat) : List Char :=
  "minting-".data ++ network.data ++ "-".data ++ natDecimalChars nowMs ++ ".json".data

/-- Embedding of `fs.writeFileSync` over a file store keyed by path: writing
creates the file or silently replaces the content of an existing file at the
same path. -/
def writeFileSync (fs : List (List Char × String)) (p : List Char) (content : String) :
    List (List Char × String) :=
  (fs.filter fun e => e.1 != p) ++ [(p, content)]

end MintToken

namespace CreateLiquidity

/-- The ECMAScript abstract relational comparison on two strings (the
semantics of the JavaScript `<` operator when both operands are strings):
lexicographic comparison by code unit. -/
def jsStringLt : List Char → List Char → Bool
  | [], [] => false
  | [], _ :: _ => true
  | _ :: _, [] => false
  | a :: as, b :: bs =>
    if a.toNat < b.toNat then true
    else if b.toNat < a.toNat then false
    else jsStringLt as bs

/-- The parts of deployment-config.json that create-liquidity.js reads:
`raydium.initial_liquidity.sol_amount`, `raydium.initial_liquidity.glowmin_amount`
and `fees.transaction_fee`. -/
structure Config where
  solAmount : Nat
  glowminAmount : Nat
  transactionFee : Nat
deriving Repr, DecidableEq

/-- Oracles for the chain state and external calls create-liquidity.js
performs: whether `getParsedAccountInfo` finds the mint account, the SOL
balance returned by `getBalance` (in lamports), the GLOWMIN token balance
returned by `getTokenAccountBalance` (whose `amount` field is the decimal
string of this number), and the three pool operations. -/
structure World where
  mintAccountExists : Bool
  solBalance : Nat
  glowminBalance : Nat
  createPool : Except String String
  addLiquidity : Except String String
  lockLiquidity : Except String String

/-- Outcome of `LiquidityCreator.checkPrerequisites`: either all checks pass
or the first failing check terminates the process, carrying the current and
required values the script prints. -/
inductive PrereqResult
  | passed
  | mintNotFound
  | insufficientSol (available required : Nat)
  | insufficientGlowmin (available required : Nat)
deriving Repr, DecidableEq

/-- Embedding of `LiquidityCreator.checkPrerequisites` (create-liquidity.js).
The checks run in the fixed order mint existence, SOL balance, GLOWMIN
balance, and the first failure calls `process.exit(1)`.  The SOL check is the
numeric comparison `balance < sol_amount + transaction_fee * 10`.  The
GLOWMIN check is the source comparison
`tokenBalance.value.amount < requiredTokens.toString()`: both operands are
strings (the RPC returns the token amount as its decimal string), so
JavaScript compares the two decimal strings lexicographically by code unit,
embedded here as `jsStringLt` over the decimal renderings. -/
def checkPrerequisites (c : Config) (w : World) : PrereqResult :=
  if !w.mintAccountExists then .mintNotFound
  else
    let requiredBalance := c.solAmount + c.transactionFee * 10
    if w.solBalance < requiredBalance then .insufficientSol w.solBalance requiredBalance
    else if jsStringLt (natDecimalChars w.glowminBalance) (natDecimalChars c.glowminAmount) then
      .insufficientGlowmin w.glowminBalance c.glowminAmount
    else .passed

/-- The externally visible steps of a pool-creation run, in execution order. -/
inductive Step
  | createPool
  | addLiquidity
  | lockLiquidity
  | savePoolInfo
deriving Repr, DecidableEq

/-- Outcome of one `executePoolCreation` run: the process exit status and the
ordered list of steps that were attempted. -/
structure Run where
  exit : Nat
  steps : List Step
deriving Repr, DecidableEq

/-- Embedding of `LiquidityCreator.executePoolCreation` (create-liquidity.js):
prerequisites first (their failure exits before any step), then the dry-run
early return, then `createPool`, `addInitialLiquidity`, `lockLiquidity` and
`savePoolInfo` in sequence inside one try/catch, so the first step that
throws aborts the run with `process.exit(1)` and no later step is attempted. -/
def executePoolCreation (c : Config) (w : World) (dryRun : Bool) : Run :=
  match checkPrerequisites c w with
  | .passed =>
    if dryRun then { exit := 0, steps := [] }
    else
      match w.createPool with
      | .error _ => { exit := 1, steps := [.createPool] }
      | .ok _ =>
        match w.addLiquidity with
        | .error _ => { exit := 1, steps := [.createPool, .addLiquidity] }
        | .ok _ =>
          match w.lockLiquidity with
          | .error _ =>
            { exit := 1, steps := [.createPool, .addLiquidity, .lockLiquidity] }
          | .ok _ =>
            { exit := 0,
              steps := [.createPool, .addLiquidity, .lockLiquidity, .savePoolInfo] }
  | _ => { exit := 1, steps := [] }

/-- A configuration matching the documented deployment: one SOL of initial
liquidity, the 40 percent GLOWMIN allocation, a 5000-lamport fee. -/
def scenarioConfig : Config :=
  { solAmount := 1000000000, glowminAmount := 40000000, transactionFee := 5000 }

/-- A world matching end-to-end scenario C: prerequisites pass, the pool is
created, and the add-liquidity call throws. -/
def scenarioCWorld : World :=
  { mintAccountExists := true, solBalance := 10000000000, glowminBalance := 40000000,
    createPool := .ok "Pool111",
    addLiquidity := .error "simulated liquidity failure",
    lockLiquidity := .ok "Lock111" }

/-- A world in which prerequisites pass and every pool operation succeeds. -/
def allOkPoolWorld : World :=
  { mintAccountExists := true, solBalance := 10000000000, glowminBalance := 40000000,
    createPool := .ok "Pool111", addLiquidity := .ok "Liq111",
    lockLiquidity := .ok "Lock111" }

end CreateLiquidity

namespace DeployMetadata

/-- Options produced by the deploy-metadata.js `parseArgs` (defaults
`network: devnet, dryRun: false, verbose: false`); `helpShown` records the
`process.exit(0)` taken on `--help`, and `network` becomes `none` when
`--network` is the last argument and `args[++i]` is `undefined`. -/
structure Options where
  network : Option String
  dryRun : Bool
  verbose : Bool
  helpShown : Bool
deriving Repr, DecidableEq

/-- Default options of deploy-metadata.js `parseArgs`. -/
def defaultOptions : Options :=
  { network := some "devnet", dryRun := false, verbose := false, helpShown := false }

/-- The argument strings the deploy-metadata.js `parseArgs` switch has cases
for. -/
def recognizedArgs : List String :=
  ["--network", "--dry-run", "--verbose", "--help"]

/-- Embedding of the deploy-metadata.js `parseArgs` loop: a `switch` over
each argument in turn, where `--network` consumes the following argument,
`--help` prints usage and exits, and any argument matching no case falls
through the `switch` silently, with no error, no usage text and no exit. -/
def parseArgs : List String → Options → Options
  | [], o => o
  | a :: rest, o =>
    if a = "--network" then
      match rest with
      | v :: rest2 => parseArgs rest2 { o with network := some v }
      | [] => parseArgs [] { o with network := none }
    else if a = "--dry-run" then parseArgs rest { o with dryRun := true }
    else if a = "--verbose" then parseArgs rest { o with verbose := true }
    else if a = "--help" then { o with helpShown := true }
    else parseArgs rest o

end DeployMetadata

namespace CreateLiquidity

/-- A configuration whose required GLOWMIN amount is 10. -/
def scenarioLowConfig : Config :=
  { solAmount := 1000, glowminAmount := 10, transactionFee := 5 }

/-- A chain state whose GLOWMIN balance is 9 (numerically below the required
10) and whose other prerequisites are satisfied. -/
def scenarioLowWorld : World :=
  { mintAccountExists := true, solBalance := 2000, glowminBalance := 9,
    createPool := .ok "Pool111", addLiquidity := .ok "Liq111",
    lockLiquidity := .ok "Lock111" }

/-- A configuration whose required GLOWMIN amount is 20. -/
def scenarioHighConfig : Config :=
  { solAmount := 1000, glowminAmount := 20, transactionFee := 5 }

/-- A chain state whose GLOWMIN balance is 100 (numerically above the
required 20) and whose other prerequisites are satisfied. -/
def scenarioHighWorld : World :=
  { mintAccountExists := true, solBalance := 2000, glowminBalance := 100,
    createPool := .ok "Pool111", addLiquidity := .ok "Liq111",
    lockLiquidity := .ok "Lock111" }

end CreateLiquidity

/-- Helper: the natural floor of `T * (num / den)` over the rationals is the
natural division `T * num / den`. -/
theorem floorMulFrac (T num den : Nat) :
    ⌊(T : ℚ) * ((num : ℚ) / (den : ℚ))⌋₊ = T * num / den := by
  rw [show (T : ℚ) * ((num : ℚ) / (den : ℚ)) = ((T * num : ℕ) : ℚ) / ((den : ℕ) : ℚ) by
    push_cast; ring]
  rw [Nat.floor_div_nat, Nat.floor_natCast]

/-- C1: the claim states that a dry-run performs no network mutation and no
file write, and in particular that the mint action under `--dry-run` with no
`--amount` creates no on-chain mint.  The code violates this: mint-token.js
calls `createTokenMint()` unconditionally before the `dryRun` branch of
`distributeTokens`, so the dry run still performs the mint-account creation,
an on-chain mutation (the script's own help text says `--dry-run` shows what
would be minted without executing).  This theorem evaluates the embedded
mint run at that input: the effect trace of the dry run contains the
`createMint` network mutation, while no deployments file is written; for
contrast, the pool action's dry run attempts no step at all. -/
theorem dryRunMintCreatesMintAccount :
    MintToken.Effect.createMint ∈
      (MintToken.executeMinting MintToken.bothKeypairs MintToken.allOkWorld
        100000000 none true).effects ∧
    ((MintToken.executeMinting MintToken.bothKeypairs MintToken.allOkWorld
        100000000 none true).effects.filter MintToken.isNetworkMutation) ≠ [] ∧
    ((MintToken.executeMinting MintToken.bothKeypairs MintToken.allOkWorld
        100000000 none true).effects.filter MintToken.isFileWrite) = [] ∧
    (MintToken.executeMinting MintToken.bothKeypairs MintToken.allOkWorld
        100000000 none true).saved = none ∧
    (CreateLiquidity.executePoolCreation CreateLiquidity.scenarioConfig
        CreateLiquidity.allOkPoolWorld true).steps = [] := by
  decide

theorem log2Aux_spec (fuel : Nat) :
    ∀ n, n ≤ fuel → n ≠ 0 → 2 ^ log2Aux fuel n ≤ n ∧ n < 2 ^ (log2Aux fuel n + 1) := by
  induction fuel with
  | zero => intro n hn h0; omega
  | succ f ih =>
    intro n hn h0
    match n with
    | 1 => simp [log2Aux]
    | m + 2 =>
      have hd : (m + 2) / 2 ≤ f := by omega
      have hd0 : (m + 2) / 2 ≠ 0 := by omega
      have hih := ih ((m + 2) / 2) hd hd0
      simp only [log2Aux]
      have e1 : (2:Nat) ^ (log2Aux f ((m + 2) / 2) + 1) =
          2 * 2 ^ log2Aux f ((m + 2) / 2) := by ring
      have e2 : (2:Nat) ^ (log2Aux f ((m + 2) / 2) + 1 + 1) =
          4 * 2 ^ log2Aux f ((m + 2) / 2) := by ring
      omega

theorem natLog2_spec (n : Nat) (hn : n ≠ 0) :
    2 ^ natLog2 n ≤ n ∧ n < 2 ^ (natLog2 n + 1) :=
  log2Aux_spec n n (le_refl n) hn

/-- A multiple of P that is at most the floor multiple plus its remainder is
at most the floor multiple. -/
theorem floorMultiple_ge (P W r X : Nat) (hW : P ∣ W) (hX : P ∣ X)
    (hXN : X ≤ W + r) (hr : r < P) : X ≤ W := by
  obtain ⟨q, rfl⟩ := hW
  obtain ⟨y, rfl⟩ := hX
  by_contra hc
  push_neg at hc
  have hqy : q < y := Nat.lt_of_mul_lt_mul_left hc
  have h1 : P * (q + 1) ≤ P * y := Nat.mul_le_mul_left P hqy
  have h2 : P * (q + 1) = P * q + P := by ring
  omega

/-- The only multiple of P strictly between W and W + 2P is W + P. -/
theorem multipleEqSucc (P W X : Nat) (hP : 0 < P) (hW : P ∣ W) (hX : P ∣ X)
    (h1 : W < X) (h2 : X < W + 2 * P) : X = W + P := by
  obtain ⟨q, rfl⟩ := hW
  obtain ⟨y, rfl⟩ := hX
  have hqy : q < y := Nat.lt_of_mul_lt_mul_left h1
  have hyq : y < q + 2 := by
    by_contra hcon
    push_neg at hcon
    have h3 : P * (q + 2) ≤ P * y := Nat.mul_le_mul_left P hcon
    have h4 : P * (q + 2) = P * q + 2 * P := by ring
    omega
  have hy : y = q + 1 := by omega
  subst hy
  ring

theorem oddOfTwoMulDvd (P q X : Nat) (hP : 0 < P) (hXq : X = P * (q + 1))
    (hdvd : 2 * P ∣ X) : q % 2 = 1 := by
  obtain ⟨w, hw⟩ := hdvd
  have h1 : P * (q + 1) = P * (2 * w) := by rw [← hXq, hw]; ring
  have h2 := Nat.eq_of_mul_eq_mul_left hP h1
  omega

/-- Case description of `roundToGrid`: the result is the floor multiple or
the next one up; the first happens only when the remainder is at most half
the step, the second only when it is at least half the step, and at an exact
tie the choice is decided by the parity of the quotient. -/
theorem roundToGrid_spec (N P H : Nat) (hP : P = 2 * H) (hH : 0 < H) :
    (roundToGrid N P H = N - N % P ∧ N % P ≤ H ∧
      (N % P = H → N / P % 2 = 0)) ∨
    (roundToGrid N P H = N - N % P + P ∧ H ≤ N % P ∧
      (N % P = H → N / P % 2 = 1)) := by
  have hP0 : 0 < P := by omega
  have hqr := Nat.div_add_mod N P
  have hWq : N - N % P = P * (N / P) := by omega
  unfold roundToGrid
  split_ifs with h1 h2
  · left
    refine ⟨?_, by omega, by omega⟩
    rw [hWq]; ring
  · right
    refine ⟨?_, by omega, by omega⟩
    rw [hWq]; ring
  · have hrH : N % P = H := by omega
    rcases Nat.mod_two_eq_zero_or_one (N / P) with he | ho
    · left
      refine ⟨?_, by omega, fun _ => he⟩
      rw [he, hWq]; ring
    · right
      refine ⟨?_, by omega, fun _ => ho⟩
      rw [ho, hWq]; ring

/-- Rounding to nearest never falls below a grid multiple that is at most N. -/
theorem roundToGrid_ge_multiple (N P H X : Nat) (hP : P = 2 * H) (hH : 0 < H)
    (hdvdX : P ∣ X) (hXN : X ≤ N) : X ≤ roundToGrid N P H := by
  have hP0 : 0 < P := by omega
  have hqr := Nat.div_add_mod N P
  have hr : N % P < P := Nat.mod_lt _ hP0
  have hWq : N - N % P = P * (N / P) := by omega
  have hXW : X ≤ N - N % P :=
    floorMultiple_ge P (N - N % P) (N % P) X ⟨N / P, hWq⟩ hdvdX (by omega) hr
  rcases roundToGrid_spec N P H hP hH with ⟨h1, _, _⟩ | ⟨h1, _, _⟩ <;> omega

/-- Rounding to nearest moves N by at most half a grid step upward. -/
theorem roundToGrid_le (N P H : Nat) (hP : P = 2 * H) (hH : 0 < H) :
    roundToGrid N P H ≤ N + H := by
  have hP0 : 0 < P := by omega
  have hqr := Nat.div_add_mod N P
  have hr : N % P < P := Nat.mod_lt _ hP0
  rcases roundToGrid_spec N P H hP hH with ⟨h1, h2, _⟩ | ⟨h1, h2, _⟩ <;> omega

/-- When a multiple of 2P lies within half a step above N, rounding to
nearest lands exactly on it (the tie goes to it because its quotient is
even). -/
theorem roundToGrid_exact_multiple (N P H X : Nat) (hP : P = 2 * H) (hH : 0 < H)
    (hgt : N < X) (hle : X ≤ N + H) (hdvd2 : 2 * P ∣ X) :
    roundToGrid N P H = X := by
  have hP0 : 0 < P := by omega
  have hqr := Nat.div_add_mod N P
  have hr : N % P < P := Nat.mod_lt _ hP0
  have hWq : N - N % P = P * (N / P) := by omega
  have hdvdW : P ∣ N - N % P := ⟨N / P, hWq⟩
  have hdvdX : P ∣ X := dvd_trans ⟨2, by ring⟩ hdvd2
  have hXeq : X = (N - N % P) + P :=
    multipleEqSucc P (N - N % P) X hP0 hdvdW hdvdX (by omega) (by omega)
  rcases roundToGrid_spec N P H hP hH with ⟨h1, h2, h3⟩ | ⟨h1, _, _⟩
  · exfalso
    have hrH : N % P = H := by omega
    have hq0 := h3 hrH
    have hodd : (N / P) % 2 = 1 := by
      apply oddOfTwoMulDvd P (N / P) X hP0 ?_ hdvd2
      rw [hXeq, hWq]; ring
    omega
  · omega

/-- Isolated scaled-floor lower bounds used inside the bracket lemmas; each is
stated over a minimal context so that the numerator comparison involves only
one division atom. -/
theorem gridLowerNum04 (T N : Nat) (hNdef : N = T * 3602879701896397) :
    2 * T / 5 * 2 ^ 53 ≤ N := by omega

theorem gridLowerNum01 (T N : Nat) (hNdef : N = T * 3602879701896397) :
    T / 10 * 2 ^ 55 ≤ N := by omega

theorem gridLowerNum005 (T N : Nat) (hNdef : N = T * 3602879701896397) :
    T / 20 * 2 ^ 56 ≤ N := by omega

theorem gridLowerNum03 (T N : Nat) (hT : T < 2 ^ 53)
    (hNdef : N = T * 5404319552844595) (hrho : 3 * T % 10 ≠ 0) :
    3 * T / 10 * 2 ^ 54 ≤ N := by omega

theorem gridLowerNum015 (T N : Nat) (hT : T < 2 ^ 53)
    (hNdef : N = T * 5404319552844595) (hrho : 3 * T % 20 ≠ 0) :
    3 * T / 20 * 2 ^ 55 ≤ N := by omega

/-- In the exact-divisibility residue class the scaled floor multiple lies
strictly above the product numerator but within half a grid step of it. -/
theorem tieBounds03 (T N H : Nat) (h3 : 3 ≤ T)
    (hNdef : N = T * 5404319552844595) (hrho : 3 * T % 10 = 0)
    (hNH : N < 2 * (H * 2 ^ 53)) :
    N < 3 * T / 10 * 2 ^ 54 ∧ 3 * T / 10 * 2 ^ 54 ≤ N + H := by omega

theorem tieBounds015 (T N H : Nat) (h3 : 3 ≤ T)
    (hNdef : N = T * 5404319552844595) (hrho : 3 * T % 20 = 0)
    (hNH : N < 2 * (H * 2 ^ 53)) :
    N < 3 * T / 20 * 2 ^ 55 ∧ 3 * T / 20 * 2 ^ 55 ≤ N + H := by omega

/-- Residue steps: when the scaled supply is strictly below the up-drift
threshold of a bucket, it is at most the threshold minus one. -/
theorem residueLow04 (T : Nat) (h : 2 * T < 5 * (2 * T / 5) + 3) :
    2 * T ≤ 5 * (2 * T / 5) + 2 := by omega

theorem residueLow03 (T : Nat) (h : 3 * T < 10 * (3 * T / 10) + 9) :
    3 * T ≤ 10 * (3 * T / 10) + 8 := by omega

theorem residueLow015 (T : Nat) (h : 3 * T < 20 * (3 * T / 20) + 19) :
    3 * T ≤ 20 * (3 * T / 20) + 18 := by omega

theorem residueLow01 (T : Nat) (h : T < 10 * (T / 10) + 9) :
    T ≤ 10 * (T / 10) + 8 := by omega

theorem residueLow005 (T : Nat) (h : T < 20 * (T / 20) + 19) :
    T ≤ 20 * (T / 20) + 18 := by omega

/-- Bracketing of the liquidity amount: for every supply below 2^53 the
binary64-computed amount is the exact floor of 0.4 T or that plus one, and
it can exceed the exact floor only when 2T mod 5 is 3 or 4. -/
theorem liquidityAmountBracket (T : Nat) (hT : T < 2 ^ 53) :
    2 * T / 5 ≤ flMulFloor T 3602879701896397 53 ∧
    flMulFloor T 3602879701896397 53 ≤ 2 * T / 5 + 1 ∧
    (flMulFloor T 3602879701896397 53 ≤ 2 * T / 5 ∨
      5 * (2 * T / 5) + 3 ≤ 2 * T) := by
  rcases Nat.lt_or_ge T 3 with hs | h3
  · interval_cases T <;> decide
  · have hc3 : 3 * 3602879701896397 ≤ T * 3602879701896397 :=
      Nat.mul_le_mul_right _ h3
    have hN53 : ¬ T * 3602879701896397 < 2 ^ 53 := by omega
    simp only [flMulFloor]
    rw [if_neg hN53]
    set N := T * 3602879701896397 with hNdef
    have hN0 : N ≠ 0 := by omega
    obtain ⟨hbl, hbu⟩ := natLog2_spec N hN0
    set b := natLog2 N with hbdef
    have hb53 : 53 ≤ b := by
      by_contra hcon
      push_neg at hcon
      have h1 : (2:Nat) ^ (b + 1) ≤ 2 ^ 53 :=
        Nat.pow_le_pow_right (by norm_num) (by omega)
      omega
    have hb105 : b ≤ 105 := by
      have hNle : N ≤ (2 ^ 53 - 1) * 3602879701896397 :=
        Nat.mul_le_mul_right _ (by omega)
      by_contra hcon
      push_neg at hcon
      have h1 : (2:Nat) ^ 106 ≤ 2 ^ b :=
        Nat.pow_le_pow_right (by norm_num) (by omega)
      have h2 : ((2:Nat) ^ 53 - 1) * 3602879701896397 < 2 ^ 106 := by norm_num
      omega
    have hPH : (2:Nat) ^ (b - 52) = 2 * 2 ^ (b - 53) := by
      rw [← pow_succ']
      congr 1
      omega
    set P := (2:Nat) ^ (b - 52) with hPdef
    set H := (2:Nat) ^ (b - 53) with hHdef
    have hHpos : 0 < H := by positivity
    have hH2b : H * 2 ^ 53 = 2 ^ b := by
      rw [hHdef, ← pow_add]
      congr 1
      omega
    have hH53N : H * 2 ^ 53 ≤ N := by omega
    have hNH : N < 2 * (H * 2 ^ 53) := by
      have e : (2:Nat) ^ (b + 1) = 2 * 2 ^ b := by ring
      omega
    have hdvdPk : P ∣ 2 ^ 53 := by
      rw [hPdef]
      exact pow_dvd_pow 2 (by omega)
    have hVle := roundToGrid_le N P H hPH hHpos
    have hge : 2 * T / 5 * 2 ^ 53 ≤ roundToGrid N P H :=
      roundToGrid_ge_multiple N P H _ hPH hHpos
        (Dvd.dvd.mul_left hdvdPk _) (gridLowerNum04 T N hNdef)
    refine ⟨by omega, by omega, ?_⟩
    rcases Nat.lt_or_ge (2 * T) (5 * (2 * T / 5) + 3) with hlow | hhigh
    · have h10 := residueLow04 T hlow
      have hT2 : T ≤ 9007199254740991 := by omega
      left
      by_contra hcon
      push_neg at hcon
      have hV1 : (2 * T / 5 + 1) * 2 ^ 53 ≤ roundToGrid N P H :=
        (Nat.le_div_iff_mul_le (by positivity)).mp hcon
      have hV2 : (2 * T / 5 + 1) * 2 ^ 53 ≤ N + H := le_trans hV1 hVle
      have h5 : (2 * T / 5 + 1) * 2 ^ 53 * 2 ^ 53 ≤
          T * 3602879701896397 * 2 ^ 53 + T * 3602879701896397 := by
        have step1 := Nat.mul_le_mul_right (2 ^ 53) hV2
        omega
      norm_num at h5
      linarith only [h5, h10, hT2]
    · right
      exact hhigh

/-- Bracketing of the community amount: the binary64-computed amount is the
exact floor of 0.3 T or that plus one, exceeding it only when 3T mod 10
is 9. -/
theorem communityAmountBracket (T : Nat) (hT : T < 2 ^ 53) :
    3 * T / 10 ≤ flMulFloor T 5404319552844595 54 ∧
    flMulFloor T 5404319552844595 54 ≤ 3 * T / 10 + 1 ∧
    (flMulFloor T 5404319552844595 54 ≤ 3 * T / 10 ∨
      10 * (3 * T / 10) + 9 ≤ 3 * T) := by
  rcases Nat.lt_or_ge T 3 with hs | h3
  · interval_cases T <;> decide
  · have hc3 : 3 * 5404319552844595 ≤ T * 5404319552844595 :=
      Nat.mul_le_mul_right _ h3
    have hN53 : ¬ T * 5404319552844595 < 2 ^ 53 := by omega
    simp only [flMulFloor]
    rw [if_neg hN53]
    set N := T * 5404319552844595 with hNdef
    have hN0 : N ≠ 0 := by omega
    obtain ⟨hbl, hbu⟩ := natLog2_spec N hN0
    set b := natLog2 N with hbdef
    have hb53 : 53 ≤ b := by
      by_contra hcon
      push_neg at hcon
      have h1 : (2:Nat) ^ (b + 1) ≤ 2 ^ 53 :=
        Nat.pow_le_pow_right (by norm_num) (by omega)
      omega
    have hb105 : b ≤ 105 := by
      have hNle : N ≤ (2 ^ 53 - 1) * 5404319552844595 :=
        Nat.mul_le_mul_right _ (by omega)
      by_contra hcon
      push_neg at hcon
      have h1 : (2:Nat) ^ 106 ≤ 2 ^ b :=
        Nat.pow_le_pow_right (by norm_num) (by omega)
      have h2 : ((2:Nat) ^ 53 - 1) * 5404319552844595 < 2 ^ 106 := by norm_num
      omega
    have hPH : (2:Nat) ^ (b - 52) = 2 * 2 ^ (b - 53) := by
      rw [← pow_succ']
      congr 1
      omega
    set P := (2:Nat) ^ (b - 52) with hPdef
    set H := (2:Nat) ^ (b - 53) with hHdef
    have hHpos : 0 < H := by positivity
    have hH2b : H * 2 ^ 53 = 2 ^ b := by
      rw [hHdef, ← pow_add]
      congr 1
      omega
    have hH53N : H * 2 ^ 53 ≤ N := by omega
    have hNH : N < 2 * (H * 2 ^ 53) := by
      have e : (2:Nat) ^ (b + 1) = 2 * 2 ^ b := by ring
      omega
    have hdvdPk : P ∣ 2 ^ 54 := by
      rw [hPdef]
      exact pow_dvd_pow 2 (by omega)
    have hVle := roundToGrid_le N P H hPH hHpos
    have hge : 3 * T / 10 * 2 ^ 54 ≤ roundToGrid N P H := by
      rcases eq_or_ne (3 * T % 10) 0 with hrho | hrho
      · have h2P : 2 * P ∣ 2 ^ 54 := by
          rw [hPdef, ← pow_succ']
          exact pow_dvd_pow 2 (by omega)
        obtain ⟨ht1, ht2⟩ := tieBounds03 T N H h3 hNdef hrho hNH
        have heq := roundToGrid_exact_multiple N P H (3 * T / 10 * 2 ^ 54)
          hPH hHpos ht1 ht2 (Dvd.dvd.mul_left h2P _)
        omega
      · exact roundToGrid_ge_multiple N P H _ hPH hHpos
          (Dvd.dvd.mul_left hdvdPk _) (gridLowerNum03 T N hT hNdef hrho)
    refine ⟨by omega, by omega, ?_⟩
    rcases Nat.lt_or_ge (3 * T) (10 * (3 * T / 10) + 9) with hlow | hhigh
    · have h10 := residueLow03 T hlow
      have hT2 : T ≤ 9007199254740991 := by omega
      left
      by_contra hcon
      push_neg at hcon
      have hV1 : (3 * T / 10 + 1) * 2 ^ 54 ≤ roundToGrid N P H :=
        (Nat.le_div_iff_mul_le (by positivity)).mp hcon
      have hV2 : (3 * T / 10 + 1) * 2 ^ 54 ≤ N + H := le_trans hV1 hVle
      have h5 : (3 * T / 10 + 1) * 2 ^ 54 * 2 ^ 53 ≤
          T * 5404319552844595 * 2 ^ 53 + T * 5404319552844595 := by
        have step1 := Nat.mul_le_mul_right (2 ^ 53) hV2
        omega
      norm_num at h5
      linarith only [h5, h10, hT2]
    · right
      exact hhigh

/-- Bracketing of the team amount: the binary64-computed amount is the exact
floor of 0.15 T or that plus one, exceeding it only when 3T mod 20 is 19. -/
theorem teamAmountBracket (T : Nat) (hT : T < 2 ^ 53) :
    3 * T / 20 ≤ flMulFloor T 5404319552844595 55 ∧
    flMulFloor T 5404319552844595 55 ≤ 3 * T / 20 + 1 ∧
    (flMulFloor T 5404319552844595 55 ≤ 3 * T / 20 ∨
      20 * (3 * T / 20) + 19 ≤ 3 * T) := by
  rcases Nat.lt_or_ge T 3 with hs | h3
  · interval_cases T <;> decide
  · have hc3 : 3 * 5404319552844595 ≤ T * 5404319552844595 :=
      Nat.mul_le_mul_right _ h3
    have hN53 : ¬ T * 5404319552844595 < 2 ^ 53 := by omega
    simp only [flMulFloor]
    rw [if_neg hN53]
    set N := T * 5404319552844595 with hNdef
    have hN0 : N ≠ 0 := by omega
    obtain ⟨hbl, hbu⟩ := natLog2_spec N hN0
    set b := natLog2 N with hbdef
    have hb53 : 53 ≤ b := by
      by_contra hcon
      push_neg at hcon
      have h1 : (2:Nat) ^ (b + 1) ≤ 2 ^ 53 :=
        Nat.pow_le_pow_right (by norm_num) (by omega)
      omega
    have hb105 : b ≤ 105 := by
      have hNle : N ≤ (2 ^ 53 - 1) * 5404319552844595 :=
        Nat.mul_le_mul_right _ (by omega)
      by_contra hcon
      push_neg at hcon
      have h1 : (2:Nat) ^ 106 ≤ 2 ^ b :=
        Nat.pow_le_pow_right (by norm_num) (by omega)
      have h2 : ((2:Nat) ^ 53 - 1) * 5404319552844595 < 2 ^ 106 := by norm_num
      omega
    have hPH : (2:Nat) ^ (b - 52) = 2 * 2 ^ (b - 53) := by
      rw [← pow_succ']
      congr 1
      omega
    set P := (2:Nat) ^ (b - 52) with hPdef
    set H := (2:Nat) ^ (b - 53) with hHdef
    have hHpos : 0 < H := by positivity
    have hH2b : H * 2 ^ 53 = 2 ^ b := by
      rw [hHdef, ← pow_add]
      congr 1
      omega
    have hH53N : H * 2 ^ 53 ≤ N := by omega
    have hNH : N < 2 * (H * 2 ^ 53) := by
      have e : (2:Nat) ^ (b + 1) = 2 * 2 ^ b := by ring
      omega
    have hdvdPk : P ∣ 2 ^ 55 := by
      rw [hPdef]
      exact pow_dvd_pow 2 (by omega)
    have hVle := roundToGrid_le N P H hPH hHpos
    have hge : 3 * T / 20 * 2 ^ 55 ≤ roundToGrid N P H := by
      rcases eq_or_ne (3 * T % 20) 0 with hrho | hrho
      · have h2P : 2 * P ∣ 2 ^ 55 := by
          rw [hPdef, ← pow_succ']
          exact pow_dvd_pow 2 (by omega)
        obtain ⟨ht1, ht2⟩ := tieBounds015 T N H h3 hNdef hrho hNH
        have heq := roundToGrid_exact_multiple N P H (3 * T / 20 * 2 ^ 55)
          hPH hHpos ht1 ht2 (Dvd.dvd.mul_left h2P _)
        omega
      · exact roundToGrid_ge_multiple N P H _ hPH hHpos
          (Dvd.dvd.mul_left hdvdPk _) (gridLowerNum015 T N hT hNdef hrho)
    refine ⟨by omega, by omega, ?_⟩
    rcases Nat.lt_or_ge (3 * T) (20 * (3 * T / 20) + 19) with hlow | hhigh
    · have h10 := residueLow015 T hlow
      have hT2 : T ≤ 9007199254740991 := by omega
      left
      by_contra hcon
      push_neg at hcon
      have hV1 : (3 * T / 20 + 1) * 2 ^ 55 ≤ roundToGrid N P H :=
        (Nat.le_div_iff_mul_le (by positivity)).mp hcon
      have hV2 : (3 * T / 20 + 1) * 2 ^ 55 ≤ N + H := le_trans hV1 hVle
      have h5 : (3 * T / 20 + 1) * 2 ^ 55 * 2 ^ 53 ≤
          T * 5404319552844595 * 2 ^ 53 + T * 5404319552844595 := by
        have step1 := Nat.mul_le_mul_right (2 ^ 53) hV2
        omega
      norm_num at h5
      linarith only [h5, h10, hT2]
    · right
      exact hhigh

/-- Bracketing of the marketing amount: the binary64-computed amount is the
exact floor of 0.1 T or that plus one, exceeding it only when T mod 10
is 9. -/
theorem marketingAmountBracket (T : Nat) (hT : T < 2 ^ 53) :
    T / 10 ≤ flMulFloor T 3602879701896397 55 ∧
    flMulFloor T 3602879701896397 55 ≤ T / 10 + 1 ∧
    (flMulFloor T 3602879701896397 55 ≤ T / 10 ∨
      10 * (T / 10) + 9 ≤ T) := by
  rcases Nat.lt_or_ge T 3 with hs | h3
  · interval_cases T <;> decide
  · have hc3 : 3 * 3602879701896397 ≤ T * 3602879701896397 :=
      Nat.mul_le_mul_right _ h3
    have hN53 : ¬ T * 3602879701896397 < 2 ^ 53 := by omega
    simp only [flMulFloor]
    rw [if_neg hN53]
    set N := T * 3602879701896397 with hNdef
    have hN0 : N ≠ 0 := by omega
    obtain ⟨hbl, hbu⟩ := natLog2_spec N hN0
    set b := natLog2 N with hbdef
    have hb53 : 53 ≤ b := by
      by_contra hcon
      push_neg at hcon
      have h1 : (2:Nat) ^ (b + 1) ≤ 2 ^ 53 :=
        Nat.pow_le_pow_right (by norm_num) (by omega)
      omega
    have hb105 : b ≤ 105 := by
      have hNle : N ≤ (2 ^ 53 - 1) * 3602879701896397 :=
        Nat.mul_le_mul_right _ (by omega)
      by_contra hcon
      push_neg at hcon
      have h1 : (2:Nat) ^ 106 ≤ 2 ^ b :=
        Nat.pow_le_pow_right (by norm_num) (by omega)
      have h2 : ((2:Nat) ^ 53 - 1) * 3602879701896397 < 2 ^ 106 := by norm_num
      omega
    have hPH : (2:Nat) ^ (b - 52) = 2 * 2 ^ (b - 53) := by
      rw [← pow_succ']
      congr 1
      omega
    set P := (2:Nat) ^ (b - 52) with hPdef
    set H := (2:Nat) ^ (b - 53) with hHdef
    have hHpos : 0 < H := by positivity
    have hH2b : H * 2 ^ 53 = 2 ^ b := by
      rw [hHdef, ← pow_add]
      congr 1
      omega
    have hH53N : H * 2 ^ 53 ≤ N := by omega
    have hNH : N < 2 * (H * 2 ^ 53) := by
      have e : (2:Nat) ^ (b + 1) = 2 * 2 ^ b := by ring
      omega
    have hdvdPk : P ∣ 2 ^ 55 := by
      rw [hPdef]
      exact pow_dvd_pow 2 (by omega)
    have hVle := roundToGrid_le N P H hPH hHpos
    have hge : T / 10 * 2 ^ 55 ≤ roundToGrid N P H :=
      roundToGrid_ge_multiple N P H _ hPH hHpos
        (Dvd.dvd.mul_left hdvdPk _) (gridLowerNum01 T N hNdef)
    refine ⟨by omega, by omega, ?_⟩
    rcases Nat.lt_or_ge T (10 * (T / 10) + 9) with hlow | hhigh
    · have h10 := residueLow01 T hlow
      have hT2 : T ≤ 9007199254740991 := by omega
      left
      by_contra hcon
      push_neg at hcon
      have hV1 : (T / 10 + 1) * 2 ^ 55 ≤ roundToGrid N P H :=
        (Nat.le_div_iff_mul_le (by positivity)).mp hcon
      have hV2 : (T / 10 + 1) * 2 ^ 55 ≤ N + H := le_trans hV1 hVle
      have h5 : (T / 10 + 1) * 2 ^ 55 * 2 ^ 53 ≤
          T * 3602879701896397 * 2 ^ 53 + T * 3602879701896397 := by
        have step1 := Nat.mul_le_mul_right (2 ^ 53) hV2
        omega
      norm_num at h5
      linarith only [h5, h10, hT2]
    · right
      exact hhigh

/-- Bracketing of the reserve amount: the binary64-computed amount is the
exact floor of 0.05 T or that plus one, exceeding it only when T mod 20
is 19. -/
theorem reserveAmountBracket (T : Nat) (hT : T < 2 ^ 53) :
    T / 20 ≤ flMulFloor T 3602879701896397 56 ∧
    flMulFloor T 3602879701896397 56 ≤ T / 20 + 1 ∧
    (flMulFloor T 3602879701896397 56 ≤ T / 20 ∨
      20 * (T / 20) + 19 ≤ T) := by
  rcases Nat.lt_or_ge T 3 with hs | h3
  · interval_cases T <;> decide
  · have hc3 : 3 * 3602879701896397 ≤ T * 3602879701896397 :=
      Nat.mul_le_mul_right _ h3
    have hN53 : ¬ T * 3602879701896397 < 2 ^ 53 := by omega
    simp only [flMulFloor]
    rw [if_neg hN53]
    set N := T * 3602879701896397 with hNdef
    have hN0 : N ≠ 0 := by omega
    obtain ⟨hbl, hbu⟩ := natLog2_spec N hN0
    set b := natLog2 N with hbdef
    have hb53 : 53 ≤ b := by
      by_contra hcon
      push_neg at hcon
      have h1 : (2:Nat) ^ (b + 1) ≤ 2 ^ 53 :=
        Nat.pow_le_pow_right (by norm_num) (by omega)
      omega
    have hb105 : b ≤ 105 := by
      have hNle : N ≤ (2 ^ 53 - 1) * 3602879701896397 :=
        Nat.mul_le_mul_right _ (by omega)
      by_contra hcon
      push_neg at hcon
      have h1 : (2:Nat) ^ 106 ≤ 2 ^ b :=
        Nat.pow_le_pow_right (by norm_num) (by omega)
      have h2 : ((2:Nat) ^ 53 - 1) * 3602879701896397 < 2 ^ 106 := by norm_num
      omega
    have hPH : (2:Nat) ^ (b - 52) = 2 * 2 ^ (b - 53) := by
      rw [← pow_succ']
      congr 1
      omega
    set P := (2:Nat) ^ (b - 52) with hPdef
    set H := (2:Nat) ^ (b - 53) with hHdef
    have hHpos : 0 < H := by positivity
    have hH2b : H * 2 ^ 53 = 2 ^ b := by
      rw [hHdef, ← pow_add]
      congr 1
      omega
    have hH53N : H * 2 ^ 53 ≤ N := by omega
    have hNH : N < 2 * (H * 2 ^ 53) := by
      have e : (2:Nat) ^ (b + 1) = 2 * 2 ^ b := by ring
      omega
    have hdvdPk : P ∣ 2 ^ 56 := by
      rw [hPdef]
      exact pow_dvd_pow 2 (by omega)
    have hVle := roundToGrid_le N P H hPH hHpos
    have hge : T / 20 * 2 ^ 56 ≤ roundToGrid N P H :=
      roundToGrid_ge_multiple N P H _ hPH hHpos
        (Dvd.dvd.mul_left hdvdPk _) (gridLowerNum005 T N hNdef)
    refine ⟨by omega, by omega, ?_⟩
    rcases Nat.lt_or_ge T (20 * (T / 20) + 19) with hlow | hhigh
    · have h10 := residueLow005 T hlow
      have hT2 : T ≤ 9007199254740991 := by omega
      left
      by_contra hcon
      push_neg at hcon
      have hV1 : (T / 20 + 1) * 2 ^ 56 ≤ roundToGrid N P H :=
        (Nat.le_div_iff_mul_le (by positivity)).mp hcon
      have hV2 : (T / 20 + 1) * 2 ^ 56 ≤ N + H := le_trans hV1 hVle
      have h5 : (T / 20 + 1) * 2 ^ 56 * 2 ^ 53 ≤
          T * 3602879701896397 * 2 ^ 53 + T * 3602879701896397 := by
        have step1 := Nat.mul_le_mul_right (2 ^ 53) hV2
        omega
      norm_num at h5
      linarith only [h5, h10, hT2]
    · right
      exact hhigh

/-- C2 counterexample: the claim asserts the plan allocates exactly
floor(T * fraction) for every total supply T, but the program computes the
products in binary64 arithmetic.  At the representable supply
4999999999999997 the liquidity amount the program computes is
1999999999999999, one more than the exact floor of 0.4 times the supply,
which is 1999999999999998. -/
theorem liquidityAmountExceedsExactFloor :
    ((MintToken.calculateDistributions 4999999999999997 "Auth111").map
        (fun d => d.amount)).head? = some 1999999999999999 ∧
    ⌊((4999999999999997 : ℕ) : ℚ) * (2 / 5)⌋₊ = 1999999999999998 := by
  constructor
  · decide
  · rw [show ((2 : ℚ) / 5) = ((2 : ℕ) : ℚ) / ((5 : ℕ) : ℚ) by norm_num,
      floorMulFrac]

/-- C2: the claim says the minting plan allocates floor(T * fraction) per
named bucket in the fixed order for every total supply T, and lists the five
amounts for T = 100000000.  The for-every-T exactness is false of the
program, which computes the products in binary64 (see the counterexample
above).  Amended, program-true statement: for every supply T below 2^53 the
plan lists the buckets in the fixed order liquidity, community, team,
marketing, reserve, each computed amount is the exact floor of T times the
fraction or that floor plus one, and for T = 100000000 the amounts are
exactly 40000000, 30000000, 15000000, 10000000, 5000000, summing to
100000000. -/
theorem distributionPlanAmounts (T : Nat) (pk : String) (hT : T < 2 ^ 53) :
    (MintToken.calculateDistributions T pk).map (fun d => d.name) =
      ["Liquidity Pool", "Community", "Team", "Marketing", "Reserve"] ∧
    List.Forall₂ (fun a F => F ≤ a ∧ a ≤ F + 1)
      ((MintToken.calculateDistributions T pk).map (fun d => d.amount))
      [⌊(T : ℚ) * (2 / 5)⌋₊, ⌊(T : ℚ) * (3 / 10)⌋₊, ⌊(T : ℚ) * (3 / 20)⌋₊,
        ⌊(T : ℚ) * (1 / 10)⌋₊, ⌊(T : ℚ) * (1 / 20)⌋₊] ∧
    (T = 100000000 →
      (MintToken.calculateDistributions T pk).map (fun d => d.amount) =
        [40000000, 30000000, 15000000, 10000000, 5000000] ∧
      ((MintToken.calculateDistributions T pk).map (fun d => d.amount)).sum =
        100000000) := by
  have e04 : ⌊(T : ℚ) * (2 / 5)⌋₊ = 2 * T / 5 := by
    rw [show ((2 : ℚ) / 5) = ((2 : ℕ) : ℚ) / ((5 : ℕ) : ℚ) by norm_num,
      floorMulFrac]
    omega
  have e03 : ⌊(T : ℚ) * (3 / 10)⌋₊ = 3 * T / 10 := by
    rw [show ((3 : ℚ) / 10) = ((3 : ℕ) : ℚ) / ((10 : ℕ) : ℚ) by norm_num,
      floorMulFrac]
    omega
  have e015 : ⌊(T : ℚ) * (3 / 20)⌋₊ = 3 * T / 20 := by
    rw [show ((3 : ℚ) / 20) = ((3 : ℕ) : ℚ) / ((20 : ℕ) : ℚ) by norm_num,
      floorMulFrac]
    omega
  have e01 : ⌊(T : ℚ) * (1 / 10)⌋₊ = T / 10 := by
    rw [show ((1 : ℚ) / 10) = ((1 : ℕ) : ℚ) / ((10 : ℕ) : ℚ) by norm_num,
      floorMulFrac]
    omega
  have e005 : ⌊(T : ℚ) * (1 / 20)⌋₊ = T / 20 := by
    rw [show ((1 : ℚ) / 20) = ((1 : ℕ) : ℚ) / ((20 : ℕ) : ℚ) by norm_num,
      floorMulFrac]
    omega
  obtain ⟨a1, a2, a3⟩ := liquidityAmountBracket T hT
  obtain ⟨b1, b2, b3⟩ := communityAmountBracket T hT
  obtain ⟨c1, c2, c3⟩ := teamAmountBracket T hT
  obtain ⟨d1, d2, d3⟩ := marketingAmountBracket T hT
  obtain ⟨f1, f2, f3⟩ := reserveAmountBracket T hT
  refine ⟨rfl, ?_, ?_⟩
  · rw [e04, e03, e015, e01, e005]
    simp only [MintToken.calculateDistributions, List.map_cons, List.map_nil]
    exact .cons ⟨a1, a2⟩ (.cons ⟨b1, b2⟩ (.cons ⟨c1, c2⟩
      (.cons ⟨d1, d2⟩ (.cons ⟨f1, f2⟩ .nil))))
  · rintro rfl
    have hmap : (MintToken.calculateDistributions 100000000 pk).map
        (fun d => d.amount) =
        [flMulFloor 100000000 3602879701896397 53,
         flMulFloor 100000000 5404319552844595 54,
         flMulFloor 100000000 5404319552844595 55,
         flMulFloor 100000000 3602879701896397 55,
         flMulFloor 100000000 3602879701896397 56] := rfl
    rw [hmap]
    exact ⟨by decide, by decide⟩

/-- Witness for the amended C2 statement at the scenario supply 100000000:
the five binary64-computed plan amounts sum to the full supply. -/
theorem distributionPlanAmounts_witness :
    ((MintToken.calculateDistributions 100000000 "Auth111").map
        (fun d => d.amount)).sum = 100000000 :=
  ((distributionPlanAmounts 100000000 "Auth111" (by norm_num)).2.2 rfl).2

/-- C9 counterexample: the claim ranges over every natural total supply, but
at the supply 27022430366647196 = 6755607591661799 * 2^2 (exactly
representable in binary64, since its odd part is below 2^53) the five
binary64-computed amounts sum to 27022430366647197, one more than the
supply, so the claimed upper bound T fails. -/
theorem allocationSumExceedsSupply :
    ((MintToken.calculateDistributions 27022430366647196 "Auth111").map
        (fun d => d.amount)).sum = 27022430366647197 ∧
    27022430366647196 = 6755607591661799 * 2 ^ 2 ∧
    6755607591661799 < 2 ^ 53 := by
  refine ⟨?_, by norm_num, by norm_num⟩
  decide

/-- C9: the claim asserts that for every natural total supply T the five
floored allocation amounts sum to at most T and at least T - 4.  Over all
naturals this is false of the program (see the counterexample above, where
binary64 rounding pushes the sum above the supply).  Amended, program-true
statement: for every supply T below 2^53 the sum of the five
binary64-computed floored amounts is at most T and at least T - 4. -/
theorem flooredAllocationSumBounds (T : Nat) (pk : String) (hT : T < 2 ^ 53) :
    ((MintToken.calculateDistributions T pk).map (fun d => d.amount)).sum ≤ T ∧
    T - 4 ≤ ((MintToken.calculateDistributions T pk).map (fun d => d.amount)).sum := by
  obtain ⟨a1, a2, a3⟩ := liquidityAmountBracket T hT
  obtain ⟨b1, b2, b3⟩ := communityAmountBracket T hT
  obtain ⟨c1, c2, c3⟩ := teamAmountBracket T hT
  obtain ⟨d1, d2, d3⟩ := marketingAmountBracket T hT
  obtain ⟨f1, f2, f3⟩ := reserveAmountBracket T hT
  simp only [MintToken.calculateDistributions, List.map_cons, List.map_nil,
    List.sum_cons, List.sum_nil]
  omega

/-- Witness for the amended C9 statement at the scenario supply 100000000:
the sum of the computed amounts does not exceed the supply. -/
theorem flooredAllocationSumBounds_witness :
    ((MintToken.calculateDistributions 100000000 "Auth111").map
        (fun d => d.amount)).sum ≤ 100000000 :=
  (flooredAllocationSumBounds 100000000 "Auth111" (by norm_num)).1

/-- C6: the claim states that each balance check of the pool prerequisites
fails exactly when the available balance is numerically below the required
amount.  The code violates this for the GLOWMIN check: the source compares
`tokenBalance.value.amount` (a decimal string) against
`requiredTokens.toString()` with the JavaScript `<` operator, which on two
strings is lexicographic code-unit comparison.  This theorem evaluates the
embedded check: a balance of 9 against a requirement of 10 passes the check
(since the string "9" is not lexicographically below "10"), while a balance
of 100 against a requirement of 20 fails it (since "100" is
lexicographically below "20"), in which case the run aborts before any
execution step. -/
theorem glowminBalanceCheckStringComparison :
    CreateLiquidity.checkPrerequisites CreateLiquidity.scenarioLowConfig
      CreateLiquidity.scenarioLowWorld = .passed ∧
    CreateLiquidity.scenarioLowWorld.glowminBalance <
      CreateLiquidity.scenarioLowConfig.glowminAmount ∧
    CreateLiquidity.checkPrerequisites CreateLiquidity.scenarioHighConfig
      CreateLiquidity.scenarioHighWorld = .insufficientGlowmin 100 20 ∧
    CreateLiquidity.scenarioHighConfig.glowminAmount ≤
      CreateLiquidity.scenarioHighWorld.glowminBalance ∧
    (CreateLiquidity.executePoolCreation CreateLiquidity.scenarioHighConfig
        CreateLiquidity.scenarioHighWorld false).steps = [] ∧
    (CreateLiquidity.executePoolCreation CreateLiquidity.scenarioHighConfig
        CreateLiquidity.scenarioHighWorld false).exit = 1 := by
  decide

/-- C3: for the distribution action, a failure of a single step's external
call is caught at the step boundary and recorded in that step's result, and
the loop continues: with five steps of which only the third (index 2) fails,
the run completes, the persisted record holds five step results with exactly
one non-empty error field, and the process exits with status 0. -/
theorem distributionContinueOnError (w : MintToken.MintWorld) (T : Nat)
    (hc : ∃ m, w.createMint = .ok m)
    (he : ∃ e, w.mintTo 2 = .error e)
    (hok : ∀ i, i ≠ 2 → ∃ s, w.mintTo i = .ok s)
    (hr : ∃ s, w.revoke = .ok s) :
    ∃ rs, (MintToken.executeMinting MintToken.bothKeypairs w T none false).saved = some rs ∧
      rs.length = 5 ∧
      (rs.filter fun r => r.error.isSome).length = 1 ∧
      (MintToken.executeMinting MintToken.bothKeypairs w T none false).exit = 0 := by
  obtain ⟨m, hm⟩ := hc
  obtain ⟨e, he2⟩ := he
  obtain ⟨s0, h0⟩ := hok 0 (by decide)
  obtain ⟨s1, h1⟩ := hok 1 (by decide)
  obtain ⟨s3, h3⟩ := hok 3 (by decide)
  obtain ⟨s4, h4⟩ := hok 4 (by decide)
  obtain ⟨sr, hrr⟩ := hr
  refine ⟨MintToken.runDistributionSteps w.mintTo 0
      (MintToken.calculateDistributions T "Auth111"), ?_, ?_, ?_, ?_⟩
  · simp [MintToken.executeMinting, MintToken.createTokenMint, MintToken.bothKeypairs,
      MintToken.truthyAmount, hm, hrr]
  · simp [MintToken.runDistributionSteps, MintToken.calculateDistributions,
      h0, h1, he2, h3, h4]
  · simp [MintToken.runDistributionSteps, MintToken.calculateDistributions,
      h0, h1, he2, h3, h4]
  · simp [MintToken.executeMinting, MintToken.createTokenMint, MintToken.bothKeypairs,
      MintToken.truthyAmount, hm, hrr]

/-- C4: for the pool-creation action the three steps run in the order create
pool, add liquidity, lock liquidity with stop-on-first-error: when the
add-liquidity step fails after create-pool succeeded, the lock-liquidity step
is never attempted and the process exits with a non-zero status. -/
theorem poolStopOnFirstError (c : CreateLiquidity.Config) (w : CreateLiquidity.World)
    (hp : CreateLiquidity.checkPrerequisites c w = .passed)
    (hc : ∃ p, w.createPool = .ok p)
    (ha : ∃ e, w.addLiquidity = .error e) :
    (CreateLiquidity.executePoolCreation c w false).steps =
      [.createPool, .addLiquidity] ∧
    CreateLiquidity.Step.lockLiquidity ∉
      (CreateLiquidity.executePoolCreation c w false).steps ∧
    (CreateLiquidity.executePoolCreation c w false).exit = 1 := by
  obtain ⟨p, hcp⟩ := hc
  obtain ⟨e, hae⟩ := ha
  refine ⟨?_, ?_, ?_⟩ <;>
    simp [CreateLiquidity.executePoolCreation, hp, hcp, hae]

/-- C4 witness: scenario C instantiated with a concrete configuration and a
world whose add-liquidity call fails after pool creation succeeded. -/
theorem poolStopOnFirstError_witness :
    (CreateLiquidity.executePoolCreation CreateLiquidity.scenarioConfig
        CreateLiquidity.scenarioCWorld false).steps =
      [.createPool, .addLiquidity] ∧
    CreateLiquidity.Step.lockLiquidity ∉
      (CreateLiquidity.executePoolCreation CreateLiquidity.scenarioConfig
        CreateLiquidity.scenarioCWorld false).steps ∧
    (CreateLiquidity.executePoolCreation CreateLiquidity.scenarioConfig
        CreateLiquidity.scenarioCWorld false).exit = 1 :=
  poolStopOnFirstError CreateLiquidity.scenarioConfig CreateLiquidity.scenarioCWorld
    (by decide) ⟨"Pool111", rfl⟩ ⟨"simulated liquidity failure", rfl⟩

/-- C3 witness: scenario B instantiated with the concrete world in which only
the third distribution step fails. -/
theorem distributionContinueOnError_witness :
    ∃ rs, (MintToken.executeMinting MintToken.bothKeypairs MintToken.scenarioBWorld
        100000000 none false).saved = some rs ∧
      rs.length = 5 ∧
      (rs.filter fun r => r.error.isSome).length = 1 ∧
      (MintToken.executeMinting MintToken.bothKeypairs MintToken.scenarioBWorld
        100000000 none false).exit = 0 :=
  distributionContinueOnError MintToken.scenarioBWorld 100000000
    ⟨"Mint111", rfl⟩ ⟨"simulated network failure", rfl⟩
    (fun i hi => ⟨"Sig111", by simp [MintToken.scenarioBWorld, hi]⟩)
    ⟨"Sig222", rfl⟩

/-- C5 counterexample: the claim states that for every `--amount n` the
proportional plan is bypassed and exactly one mint of `n` units executes, but
for `n = 0` it fails: `BigInt(0)` is falsy in the `if (amount)` test of
`executeMinting`, so `--amount 0` parses to amount 0 and the run performs the
full five-step proportional distribution (including the 40000000-unit
liquidity mint) instead of a single mint of 0 units. -/
theorem amountZeroRunsFullDistribution :
    MintToken.parseArgs ["--amount", "0"] MintToken.defaultOptions =
      .ok { MintToken.defaultOptions with amount := some 0 } ∧
    ((MintToken.executeMinting MintToken.bothKeypairs MintToken.allOkWorld
        100000000 (some 0) false).effects.filter MintToken.isMintEffect).length = 5 ∧
    MintToken.Effect.mintTo 40000000 ∈
      (MintToken.executeMinting MintToken.bothKeypairs MintToken.allOkWorld
        100000000 (some 0) false).effects := by
  decide

/-- C5 amended: for the mint action invoked with `--amount n` for a nonzero
`n`, the proportional plan is bypassed and exactly one mint, of `n` units, is
executed, after which the run exits 0 without writing a deployments record;
for `n = 0` the full proportional distribution runs instead (BigInt 0 being
falsy). -/
theorem amountBypassesPlan (w : MintToken.MintWorld) (T : Nat) (n : Nat)
    (hn : n ≠ 0) (hc : ∃ m, w.createMint = .ok m) (hm : ∃ s, w.mintTo 0 = .ok s) :
    (MintToken.executeMinting MintToken.bothKeypairs w T (some n) false).effects.filter
        MintToken.isMintEffect = [.mintTo n] ∧
    (MintToken.executeMinting MintToken.bothKeypairs w T (some n) false).exit = 0 ∧
    (MintToken.executeMinting MintToken.bothKeypairs w T (some n) false).saved = none := by
  obtain ⟨m, hcm⟩ := hc
  obtain ⟨s, hms⟩ := hm
  have ht : MintToken.truthyAmount (some n) = true := by
    simp [MintToken.truthyAmount, hn]
  refine ⟨?_, ?_, ?_⟩ <;>
    simp [MintToken.executeMinting, MintToken.createTokenMint, MintToken.bothKeypairs,
      hcm, hms, ht, MintToken.isMintEffect]

/-- C5 witness: scenario D, `--amount 500`, results in exactly one mint of
500 units. -/
theorem amountBypassesPlan_witness :
    (MintToken.executeMinting MintToken.bothKeypairs MintToken.allOkWorld
        100000000 (some 500) false).effects.filter MintToken.isMintEffect =
      [.mintTo 500] ∧
    (MintToken.executeMinting MintToken.bothKeypairs MintToken.allOkWorld
        100000000 (some 500) false).exit = 0 ∧
    (MintToken.executeMinting MintToken.bothKeypairs MintToken.allOkWorld
        100000000 (some 500) false).saved = none :=
  amountBypassesPlan MintToken.allOkWorld 100000000 500 (by decide)
    ⟨"Mint111", rfl⟩ ⟨"Sig111", rfl⟩

set_option maxRecDepth 10000 in
/-- C7 counterexample: the claim states that after a silent partial credential
load, the subsequent phase fails with an error naming the missing credential.
With mint-authority.json absent, `loadKeypairs` indeed returns without
throwing and omits the key, and the subsequent `createTokenMint` phase fails
and exits 1 - but the thrown error is the generic JavaScript TypeError for the
property access `this.keypairs.mintAuthority.publicKey`, whose message names
only the property `publicKey` and mentions neither `mintAuthority` nor
`mint-authority`. -/
theorem missingCredentialGenericTypeError :
    MintToken.loadKeypairs .absent (.keypair "Freeze111") =
      .ok { mintAuthority := none, freezeAuthority := some "Freeze111" } ∧
    (MintToken.executeMinting
        { mintAuthority := none, freezeAuthority := some "Freeze111" }
        MintToken.allOkWorld 100000000 none false).exit = 1 ∧
    (MintToken.executeMinting
        { mintAuthority := none, freezeAuthority := some "Freeze111" }
        MintToken.allOkWorld 100000000 none false).fatal =
      some (.typeError "publicKey") ∧
    MintToken.errorNamesCredential (.typeError "publicKey") "mintAuthority" = false ∧
    MintToken.errorNamesCredential (.typeError "publicKey") "mint-authority" = false := by
  refine ⟨rfl, rfl, rfl, ?_, ?_⟩ <;> decide

set_option maxRecDepth 10000 in
/-- C7 amended: for a credential directory missing a required keypair file,
`loadKeypairs` does not throw and does not terminate the process; it returns
a mapping that simply omits the missing key, and the subsequent phase that
requires the missing credential fails (the process exits non-zero) with the
generic undefined-property TypeError (reading `publicKey`), an error that
does not name the missing credential. -/
theorem loadKeypairsOmitsMissing (freeze : MintToken.FileState)
    (w : MintToken.MintWorld) (T : Nat) (hf : freeze ≠ .malformed) :
    ∃ kps : MintToken.Keypairs,
      MintToken.loadKeypairs .absent freeze = .ok kps ∧
      kps.mintAuthority = none ∧
      (MintToken.executeMinting kps w T none false).exit = 1 ∧
      (MintToken.executeMinting kps w T none false).fatal =
        some (.typeError "publicKey") ∧
      MintToken.errorNamesCredential (.typeError "publicKey") "mintAuthority" = false := by
  cases freeze with
  | malformed => exact absurd rfl hf
  | absent => exact ⟨{ mintAuthority := none, freezeAuthority := none },
      rfl, rfl, rfl, rfl, by decide⟩
  | keypair k => exact ⟨{ mintAuthority := none, freezeAuthority := some k },
      rfl, rfl, rfl, rfl, by decide⟩

/-- C7 witness: the amended statement at a concrete freeze-authority file and
the all-success SDK world. -/
theorem loadKeypairsOmitsMissing_witness :
    ∃ kps : MintToken.Keypairs,
      MintToken.loadKeypairs .absent (.keypair "Freeze111") = .ok kps ∧
      kps.mintAuthority = none ∧
      (MintToken.executeMinting kps MintToken.allOkWorld 100000000 none false).exit = 1 ∧
      (MintToken.executeMinting kps MintToken.allOkWorld 100000000 none false).fatal =
        some (.typeError "publicKey") ∧
      MintToken.errorNamesCredential (.typeError "publicKey") "mintAuthority" = false :=
  loadKeypairsOmitsMissing (.keypair "Freeze111") MintToken.allOkWorld 100000000
    (by decide)

/-- C8 counterexample: the claim states that two persist calls in the same
process run, or two runs within the same wall-clock second, always produce
two distinct non-overwriting files.  The output path is keyed only by the
network and the millisecond value of `Date.now()`, so two persist calls that
observe the same millisecond build the same path, and the second
`fs.writeFileSync` silently replaces the first record: after both calls the
store holds a single file containing only the second record. -/
theorem samePersistTimestampOverwrites :
    MintToken.writeFileSync
        (MintToken.writeFileSync []
          (MintToken.saveDistributionResultsPath "devnet" 1700000000000)
          "first record")
        (MintToken.saveDistributionResultsPath "devnet" 1700000000000)
        "second record" =
      [(MintToken.saveDistributionResultsPath "devnet" 1700000000000,
        "second record")] ∧
    (1700000000000 : Nat) / 1000 = 1700000000000 / 1000 := by
  constructor
  · decide
  · rfl

/-- C8 amended: the deployments directory path is keyed by network plus the
millisecond timestamp, and two persist calls whose `Date.now()` values differ
produce two distinct paths (so repeated runs do not overwrite one another as
long as they observe different milliseconds); two calls within the same
millisecond produce the same path and the second overwrites the first. -/
theorem distinctTimestampsDistinctPaths (network : String) (t1 t2 : Nat)
    (h : t1 ≠ t2) :
    MintToken.saveDistributionResultsPath network t1 ≠
      MintToken.saveDistributionResultsPath network t2 := by
  intro heq
  apply h
  unfold MintToken.saveDistributionResultsPath at heq
  simp only [List.append_assoc] at heq
  have h1 := List.append_cancel_left heq
  have h2 := List.append_cancel_left h1
  have h3 := List.append_cancel_left h2
  exact natDecimalChars_injective t1 t2 (List.append_cancel_right h3)

/-- C8 witness: two runs one millisecond apart (inside the same wall-clock
second) write to distinct paths. -/
theorem distinctTimestampsDistinctPaths_witness :
    MintToken.saveDistributionResultsPath "devnet" 1700000000000 ≠
      MintToken.saveDistributionResultsPath "devnet" 1700000000001 :=
  distinctTimestampsDistinctPaths "devnet" 1700000000000 1700000000001 (by decide)

/-- C10 counterexample: the claim states that every unrecognized command-line
argument is silently ignored and the run proceeds exactly as if it were
absent.  That fails when the unrecognized argument follows `--network`: the
parser consumes it as the network name instead of ignoring it, so the parse
result differs from the one with the argument absent. -/
theorem unknownFlagAfterNetworkChangesParse :
    "--dryrun" ∉ DeployMetadata.recognizedArgs ∧
    DeployMetadata.parseArgs ["--network", "--dryrun"] DeployMetadata.defaultOptions ≠
      DeployMetadata.parseArgs ["--network"] DeployMetadata.defaultOptions ∧
    (DeployMetadata.parseArgs ["--network", "--dryrun"]
        DeployMetadata.defaultOptions).network = some "--dryrun" := by
  decide

/-- C10 amended: whenever the parser scans an argument (rather than consuming
it as the value of a preceding `--network`), an unrecognized argument is
silently ignored: no error, no usage text, no exit, and the parse continues
exactly as if the argument were absent; in particular a lone mistyped
`--dryrun` leaves dryRun false, so the run executes for real. -/
theorem unrecognizedArgIgnoredWhenScanned (tok : String) (rest : List String)
    (o : DeployMetadata.Options) (h : tok ∉ DeployMetadata.recognizedArgs) :
    DeployMetadata.parseArgs (tok :: rest) o = DeployMetadata.parseArgs rest o ∧
    (DeployMetadata.parseArgs ["--dryrun"] DeployMetadata.defaultOptions).dryRun = false ∧
    (DeployMetadata.parseArgs ["--dryrun"] DeployMetadata.defaultOptions).helpShown = false := by
  simp only [DeployMetadata.recognizedArgs, List.mem_cons, List.not_mem_nil,
    or_false, not_or] at h
  obtain ⟨h1, h2, h3, h4⟩ := h
  refine ⟨?_, by decide, by decide⟩
  conv_lhs => rw [DeployMetadata.parseArgs.eq_def]
  simp [h1, h2, h3, h4]

/-- C10 witness: the amended statement at the mistyped token `--dryrun` with
no further arguments. -/
theorem unrecognizedArgIgnoredWhenScanned_witness :
    DeployMetadata.parseArgs ["--dryrun"] DeployMetadata.defaultOptions =
      DeployMetadata.parseArgs [] DeployMetadata.defaultOptions ∧
    (DeployMetadata.parseArgs ["--dryrun"] DeployMetadata.defaultOptions).dryRun = false ∧
    (DeployMetadata.parseArgs ["--dryrun"] DeployMetadata.defaultOptions).helpShown = false :=
  unrecognizedArgIgnoredWhenScanned "--dryrun" [] DeployMetadata.defaultOptions
    (by decide)
